import Mathlib

/-
Shallow embedding of src/bluetooth_audio.py (class BluetoothAudio).

Modelling conventions:
* byte strings are List ℕ with every element reduced mod 256 at the point
  of interpretation, matching the Python bytes type;
* Python floats that the program uses only through exact operations
  (division by powers of two, division of small integers, comparisons)
  are modelled as ℚ; math.sin is abstracted as an arbitrary function
  argument, since no claim depends on its values;
* fallible code is Except PyErr / Option, where PyErr names the Python
  exception class that escapes; BluetoothError handlers that turn errors
  into sentinel returns are modelled directly by those returns;
* the socket send loop of write is abstracted to its observable outcome
  (a Bool saying whether every send was accepted, a caught BluetoothError
  giving False), since no claim is about the framing itself.
-/

set_option maxRecDepth 10000

namespace BluetoothAudio

/-- Python exceptions that can escape the modelled code paths. -/
inductive PyErr
  | structError
  | zeroDivision
  | attrError
deriving DecidableEq

deriving instance DecidableEq for Except

/-- Python int() applied to an exact rational value: truncation toward zero. -/
def pyInt (q : ℚ) : ℤ := if 0 ≤ q then ⌊q⌋ else ⌈q⌉

/-- Python round() applied to an exact rational value: round half to even. -/
def pyRoundE (q : ℚ) : ℤ :=
  if 2 * (q - ⌊q⌋) = 1 then (if ⌊q⌋ % 2 = 0 then ⌊q⌋ else ⌊q⌋ + 1) else round q

/-- struct.unpack of one little-endian signed 16-bit value from two bytes. -/
def s16 (lo hi : ℕ) : ℤ :=
  let u : ℕ := lo % 256 + 256 * (hi % 256)
  if u < 32768 then (u : ℤ) else (u : ℤ) - 65536

/-- Little-endian byte encoding of a signed 16-bit value, as struct.pack
with format <h emits for an in-range argument. -/
def encodeS16LE (v : ℤ) : List ℕ :=
  let u : ℕ := (v % 65536).toNat
  [u % 256, u / 256]

/-- struct.pack with format <h: range check, then little-endian bytes. -/
def packS16LE (v : ℤ) : Except PyErr (List ℕ) :=
  if -32768 ≤ v ∧ v ≤ 32767 then .ok (encodeS16LE v) else .error .structError

/-- struct.pack with format b: the signed 8-bit range check.  The packed
byte is determined by the checked value, so the value itself is returned. -/
def packSigned8 (v : ℤ) : Option ℤ :=
  if -128 ≤ v ∧ v ≤ 127 then some v else none

/-- Sign extension of one byte, as in read: if v > 127 then v - 256. -/
def sExt (b : ℕ) : ℤ :=
  if 127 < b % 256 then (b % 256 : ℤ) - 256 else (b % 256 : ℤ)

/-- Format conversion inside read, for the 16 kHz / 16-bit output format:
each input byte v is sign extended, scaled by 256 and emitted twice as
little-endian 16-bit samples (struct.pack with format <hh).  The packed
value sExt b * 256 always lies in [-32768, 32512], so the pack range
check cannot fire and the conversion is total. -/
def upsample : List ℕ → List ℕ
  | [] => []
  | b :: rest =>
      encodeS16LE (sExt b * 256) ++ encodeS16LE (sExt b * 256) ++ upsample rest

/-- Format conversion inside write, for 16 kHz / 16-bit input: groups of
4 bytes are unpacked as two little-endian signed 16-bit samples, averaged
and scaled by round((v1 + v2) / 512), and packed with struct.pack format b.
none models the struct.error raised either by unpack_from on a trailing
group shorter than 4 bytes or by pack on a value outside [-128, 127]. -/
def downsample : List ℕ → Option (List ℤ)
  | b0 :: b1 :: b2 :: b3 :: rest =>
      let val := pyRoundE (((s16 b0 b1 + s16 b2 b3 : ℤ) : ℚ) / 512)
      match packSigned8 val with
      | none => none
      | some v => (downsample rest).map (v :: ·)
  | [] => some []
  | _ => none

/-- Outcome of one recv on the audio socket: a byte chunk, or a
BluetoothError raised by the transport. -/
inductive RecvR
  | data (d : List ℕ)
  | btErr

/-- The state of the object as the Public API observes it: whether an
audio session handle is present (self.audio) and whether the worker
thread handle is present (self.pt, cleared by close). -/
structure BTState where
  audio : Bool
  pt : Bool

deriving instance DecidableEq for BTState

/-- BluetoothAudio.read: no session gives None; a caught BluetoothError
gives None; otherwise the received bytes, upsampled unless the requested
format is the native 8 kHz / 8-bit one (format 0). -/
def read (st : BTState) (rcv : RecvR) (format : ℕ) : Except PyErr (Option (List ℕ)) :=
  if !st.audio then .ok none
  else
    match rcv with
    | .btErr => .ok none
    | .data d => if format = 0 then .ok (some d) else .ok (some (upsample d))

/-- BluetoothAudio.write: no session gives False; native format sends the
bytes as given; any other format value runs downsample first, whose
struct.error escapes uncaught.  sendOk abstracts the chunked send loop:
True when every send was accepted, False when a BluetoothError was caught. -/
def write (st : BTState) (data : List ℕ) (format : ℕ) (sendOk : Bool) :
    Except PyErr Bool :=
  if !st.audio then .ok false
  else if format = 0 then .ok sendOk
  else
    match downsample data with
    | none => .error .structError
    | some _ => .ok sendOk

/-- BluetoothAudio.is_connected. -/
def is_connected (st : BTState) : Bool := st.audio

/-- BluetoothAudio.close: reads self.pt into t, then joins the thread t.
When pt is already None (a second close), the method call on t = None
raises AttributeError. -/
def close (pt : Bool) : Except PyErr Unit :=
  if pt then .ok () else .error .attrError

/-- Samples per waveform period in beep: int(8000 / frequency). -/
def beepPeriod (f : ℚ) : ℤ := pyInt (8000 / f)

/-- Total sample count in beep: int(8000 * length_ms / 1000). -/
def beepLen (ms : ℚ) : ℕ := (pyInt (8000 * ms / 1000)).toNat

/-- One loop iteration of beep: Python computes i % period first (a
ZeroDivisionError when period = 0), then the sample value through
math.sin — abstracted as sn applied to i % period and period — truncated
by int() and packed with struct.pack format <h.  Python % follows the
sign of the divisor, which is Int.fmod. -/
def beepSample (sn : ℤ → ℤ → ℚ) (a : ℚ) (period : ℤ) (i : ℕ) :
    Except PyErr (List ℕ) :=
  if period = 0 then .error .zeroDivision
  else packS16LE (pyInt (32767 * a * sn (Int.fmod (i : ℤ) period) period))

/-- The sample loop of beep, accumulating the packed bytes. -/
def beepGo (sn : ℤ → ℤ → ℚ) (a : ℚ) (period : ℤ) : List ℕ → Except PyErr (List ℕ)
  | [] => .ok []
  | i :: is => do
      let b ← beepSample sn a period i
      let rest ← beepGo sn a period is
      pure (b ++ rest)

/-- Byte string built by beep before it is passed to write.  Python
evaluates 8000 / frequency first, raising ZeroDivisionError when the
frequency is zero. -/
def beepBytes (sn : ℤ → ℤ → ℚ) (ms f a : ℚ) : Except PyErr (List ℕ) :=
  if f = 0 then .error .zeroDivision
  else beepGo sn a (beepPeriod f) (List.range (beepLen ms))

/-- BluetoothAudio.beep: generate the tone bytes, then write them in the
native format (the default format argument of write). -/
def beep (st : BTState) (sn : ℤ → ℤ → ℚ) (ms f a : ℚ) (sendOk : Bool) :
    Except PyErr Bool :=
  match beepBytes sn ms f a with
  | .error e => .error e
  | .ok snd => write st snd 0 sendOk

/-- ASCII byte values of a string literal, for the AT command constants. -/
def strB (s : String) : List ℕ := s.data.map Char.toNat

/-- Python bytes containment (the in operator): pat occurs contiguously. -/
def containsB (pat : List ℕ) : List ℕ → Bool
  | [] => pat.isPrefixOf []
  | c :: rest => pat.isPrefixOf (c :: rest) || containsB pat rest

/-- What one dispatched AT chunk produces: the bytes sent back over the
control socket, and whether the branch calls self._connect_audio(). -/
structure ATResponse where
  out : List ℕ
  connectAudio : Bool

deriving instance DecidableEq for ATResponse

/-- Framing of _send_at: CRLF before and after the payload. -/
def wrapAT (s : List ℕ) : List ℕ := strB "\r\n" ++ s ++ strB "\r\n"

/-- Bytes sent by _send_ok. -/
def okBytes : List ℕ := wrapAT (strB "OK")

/-- The AT dispatch chain of _parse_channel, in source order: substring
tests for AT+BRSF= and AT+CMER=, equality tests for the others, with
_send_error for anything that matches no branch. -/
def dispatchAT (data : List ℕ) : ATResponse :=
  if containsB (strB "AT+BRSF=") data then
    ⟨wrapAT (strB "+BRSF: 0") ++ okBytes, false⟩
  else if data = strB "AT+CIND=?\r" then
    ⟨wrapAT (strB "+CIND: (\"service\",(0,1)),(\"call\",(0,1))") ++ okBytes, false⟩
  else if data = strB "AT+CIND?\r" then
    ⟨wrapAT (strB "+CIND: 1,0") ++ okBytes, false⟩
  else if containsB (strB "AT+CMER=") data then
    ⟨okBytes, true⟩
  else if data = strB "AT+CHLD=?\r" then
    ⟨wrapAT (strB "+CHLD: 0") ++ okBytes, false⟩
  else
    ⟨wrapAT (strB "ERROR"), false⟩

/-- State of one _parse_channel control session: whether an audio session
exists, the sevice_notice flag, and instrumentation counting calls to
_connect_audio and emitted grace-period warnings. -/
structure ATState where
  audio : Bool
  notice : Bool
  connects : ℕ
  warns : ℕ

deriving instance DecidableEq for ATState

/-- Environment of one loop iteration of _parse_channel: the chunk
returned by _read_at (none on a timeout), whether the current time is
past the 10-second grace deadline, and whether a _connect_audio attempt
made in this iteration would succeed. -/
structure ATInput where
  data : Option (List ℕ)
  late : Bool
  connOk : Bool

/-- One call to _connect_audio: on success the audio session is replaced,
on failure the previous one is kept. -/
def attempt_audio (connOk : Bool) (st : ATState) : ATState :=
  { st with connects := st.connects + 1, audio := st.audio || connOk }

/-- One iteration of the while loop of _parse_channel: dispatch the chunk
if it is non-empty (Python truthiness of bytes), then, if there is still
no audio session and the grace deadline has passed, warn once and attempt
an audio connect.  The connect attempt is outside the sevice_notice test,
so it repeats on every late iteration. -/
def parse_channel_step (st : ATState) (inp : ATInput) : ATState × List ℕ :=
  let (st1, out) :=
    match inp.data with
    | some d =>
        if d ≠ [] then
          let r := dispatchAT d
          if r.connectAudio then
            (attempt_audio inp.connOk { st with notice := false }, r.out)
          else (st, r.out)
        else (st, [])
    | none => (st, [])
  let st2 :=
    if !st1.audio && inp.late then
      let st1 := if st1.notice then { st1 with warns := st1.warns + 1, notice := false } else st1
      attempt_audio inp.connOk st1
    else st1
  (st2, out)

/-- Iterated _parse_channel loop over a list of per-iteration inputs. -/
def run_parse_channel (st : ATState) : List ATInput → ATState
  | [] => st
  | i :: is => run_parse_channel (parse_channel_step st i).1 is

/-- Service classes that _find_channel distinguishes in the records
returned by bluetooth.find_service (compared as UUID strings in the
source; the inductive stands for the distinct comparison outcomes). -/
inductive SvcClass
  | handsfree
  | headset
  | genericAudio
  | other
deriving DecidableEq

/-- One service record: its advertised service classes and its RFCOMM
channel (the port field, an arbitrary integer at this interface). -/
structure SvcRecord where
  classes : List SvcClass
  port : ℤ

deriving instance DecidableEq for SvcRecord

/-- Membership test used below when reasoning about the scan. -/
def hasClass (t : SvcClass) : List SvcClass → Bool
  | [] => false
  | c :: cs => if c = t then true else hasClass t cs

/-- The inner for loop of _find_channel over the classes of one record:
Sum.inl port models the early return on the Handsfree class, Sum.inr
carries the updated hsp_channel and generic_channel accumulators. -/
def find_channel_scan (port : ℤ) : List SvcClass → Option ℤ → Option ℤ →
    (ℤ ⊕ (Option ℤ × Option ℤ))
  | [], hsp, gen => .inr (hsp, gen)
  | c :: cs, hsp, gen =>
      match c with
      | .handsfree => .inl port
      | .headset => find_channel_scan port cs (some port) gen
      | .genericAudio => find_channel_scan port cs hsp (some port)
      | .other => find_channel_scan port cs hsp gen

/-- Python truthiness of the hsp_channel value (None and 0 are falsy). -/
def truthy : Option ℤ → Bool
  | none => false
  | some n => n != 0

/-- The outer for loop of _find_channel, threading the accumulators, and
the final selection: hsp_channel if truthy, else generic_channel. -/
def find_channel_records : List SvcRecord → Option ℤ → Option ℤ → Option ℤ
  | [], hsp, gen => if truthy hsp then hsp else gen
  | r :: rs, hsp, gen =>
      match find_channel_scan r.port r.classes hsp gen with
      | .inl p => some p
      | .inr (h, g) => find_channel_records rs h g

/-- BluetoothAudio._find_channel: the value stored into self.channel
(none models None, from a scan that saw no usable class). -/
def find_channel (recs : List SvcRecord) : Option ℤ :=
  find_channel_records recs none none

/-- What the worker loop does right after _find_channel. -/
inductive WorkerDecision
  | sleepRetry
  | connectControl (c : ℤ)
deriving DecidableEq

/-- The head of _worker_loop: if not self.channel (None or 0 are falsy),
sleep and retry the resolution, else connect the control socket on the
resolved channel. -/
def worker_step (recs : List SvcRecord) : WorkerDecision :=
  match find_channel recs with
  | none => .sleepRetry
  | some c => if c = 0 then .sleepRetry else .connectControl c

/-- Channel of the first record advertising the Handsfree class, the
spec description of the short-circuit branch. -/
def firstHandsfree : List SvcRecord → Option ℤ
  | [] => none
  | r :: rs => if hasClass .handsfree r.classes then some r.port else firstHandsfree rs

/-- Channel of the last record advertising the Headset class, which is
what the hsp_channel accumulator holds after a full scan. -/
def lastHeadset : List SvcRecord → Option ℤ
  | [] => none
  | r :: rs =>
      match lastHeadset rs with
      | some p => some p
      | none => if hasClass .headset r.classes then some r.port else none

/-- Channel of the last record advertising the GenericAudio class. -/
def lastGeneric : List SvcRecord → Option ℤ
  | [] => none
  | r :: rs =>
      match lastGeneric rs with
      | some p => some p
      | none => if hasClass .genericAudio r.classes then some r.port else none

/-- State owned by _connect_audio: the audio handle and sco_payload. -/
structure AudioState where
  audio : Bool
  sco_payload : ℤ

deriving instance DecidableEq for AudioState

/-- BluetoothAudio._connect_audio: on connect failure the state is kept;
on success the negotiated MTU (a 2-byte unsigned value read back with
struct.unpack format H) gives sco_payload = mtu - 16, with no check that
the difference is positive. -/
def connect_audio (st : AudioState) (connOk : Bool) (mtu : ℕ) : AudioState :=
  if connOk then { audio := true, sco_payload := ((mtu % 65536 : ℕ) : ℤ) - 16 } else st

/-- The Downsample conversion as claim C2 words it: each full 4-byte
group yields round((v1 + v2) / 512) clamped to [-128, 127], and a
trailing partial group is dropped silently.  Stated for comparison with
downsample, which is the conversion the source performs. -/
def downsample_claimed : List ℕ → List ℤ
  | b0 :: b1 :: b2 :: b3 :: rest =>
      min 127 (max (-128) (pyRoundE (((s16 b0 b1 + s16 b2 b3 : ℤ) : ℚ) / 512))) ::
        downsample_claimed rest
  | _ => []

/-! Helper lemmas about the byte-level codec. -/

lemma sExt_bounds (b : ℕ) : -128 ≤ sExt b ∧ sExt b ≤ 127 := by
  unfold sExt
  have hb : b % 256 < 256 := Nat.mod_lt b (by norm_num)
  split_ifs <;> omega

lemma s16_encode_fst_snd (v : ℤ) (h1 : -32768 ≤ v) (h2 : v ≤ 32767) :
    s16 ((v % 65536).toNat % 256) ((v % 65536).toNat / 256) = v := by
  have hnn : 0 ≤ v % 65536 := Int.emod_nonneg v (by norm_num)
  have hlt : v % 65536 < 65536 := Int.emod_lt_of_pos v (by norm_num)
  simp only [s16]
  split_ifs <;> omega

lemma encodeS16LE_eq (v : ℤ) :
    encodeS16LE v = [(v % 65536).toNat % 256, (v % 65536).toNat / 256] := rfl

lemma encodeS16LE_length (v : ℤ) : (encodeS16LE v).length = 2 := rfl

lemma pyInt_bounds (q : ℚ) (c : ℤ) (h : |q| ≤ (c : ℚ)) :
    -c ≤ pyInt q ∧ pyInt q ≤ c := by
  have h1 : -(c : ℚ) ≤ q := neg_le_of_abs_le h
  have h2 : q ≤ (c : ℚ) := le_of_abs_le h
  have hc : 0 ≤ c := by
    have : (0 : ℚ) ≤ (c : ℚ) := le_trans (abs_nonneg q) h
    exact_mod_cast this
  unfold pyInt
  split_ifs with h0
  · refine ⟨?_, ?_⟩
    · have := Int.floor_nonneg.mpr h0
      omega
    · have := Int.floor_le_floor h2
      rwa [Int.floor_intCast] at this
  · refine ⟨?_, ?_⟩
    · have : ((-c : ℤ) : ℚ) ≤ q := by push_cast; linarith
      have := Int.ceil_le_ceil this
      rwa [Int.ceil_intCast] at this
    · have hq0 : q ≤ ((0 : ℤ) : ℚ) := by
        push_cast
        exact le_of_lt (lt_of_not_le h0)
      have := Int.ceil_le.mpr hq0
      omega

/-! Helper lemmas about indexing a concatenation of equal-length blocks. -/

lemma join_getD (k : ℕ) (L : List (List ℕ)) (hL : ∀ bl ∈ L, bl.length = k) :
    ∀ i, i < L.length → ∀ j, j < k →
      L.flatten.getD (k * i + j) 0 = (L.getD i []).getD j 0 := by
  induction L with
  | nil => intro i hi; simp at hi
  | cons b L ih =>
      intro i hi j hj
      have hb : b.length = k := hL b (by simp)
      cases i with
      | zero =>
          rw [List.flatten_cons, Nat.mul_zero, Nat.zero_add,
            List.getD_append _ _ _ _ (by omega)]
          rfl
      | succ i =>
          have hidx : k * (i + 1) + j = b.length + (k * i + j) := by rw [hb]; ring
          rw [List.flatten_cons, hidx, List.getD_append_right _ _ _ _ (by omega)]
          have : b.length + (k * i + j) - b.length = k * i + j := by omega
          rw [this, List.getD_cons_succ]
          exact ih (fun bl hbl => hL bl (by simp [hbl])) i (by simpa using hi) j hj

lemma upsample_eq_join (d : List ℕ) :
    upsample d =
      (d.map fun b => encodeS16LE (sExt b * 256) ++ encodeS16LE (sExt b * 256)).flatten := by
  induction d with
  | nil => rfl
  | cons b d ih => simp [upsample, ih]

lemma upsample_length (d : List ℕ) : (upsample d).length = 4 * d.length := by
  induction d with
  | nil => rfl
  | cons b d ih =>
      simp only [upsample, List.length_append, encodeS16LE_length, ih, List.length_cons]
      ring

/-! Helper lemmas about the beep sample loop. -/

lemma beepPeriod_eq_zero (f : ℚ) (hf : 8000 < f) : beepPeriod f = 0 := by
  have h0 : (0 : ℚ) < f := lt_trans (by norm_num) hf
  unfold beepPeriod pyInt
  rw [if_pos (by positivity)]
  refine Int.floor_eq_zero_iff.mpr (Set.mem_Ico.mpr ⟨by positivity, ?_⟩)
  exact (div_lt_one h0).mpr (by linarith)

lemma one_le_beepPeriod (f : ℚ) (h0 : 0 < f) (h8 : f ≤ 8000) : 1 ≤ beepPeriod f := by
  unfold beepPeriod pyInt
  rw [if_pos (by positivity)]
  exact Int.le_floor.mpr (by exact_mod_cast (one_le_div h0).mpr h8)

lemma beepBytes_zero_period (sn : ℤ → ℤ → ℚ) (ms f a : ℚ)
    (hf : 8000 < f) (hlen : 1 ≤ beepLen ms) :
    beepBytes sn ms f a = .error .zeroDivision := by
  have hf0 : f ≠ 0 := by
    intro h; rw [h] at hf; norm_num at hf
  unfold beepBytes
  rw [if_neg hf0, beepPeriod_eq_zero f hf]
  obtain ⟨m, hm⟩ : ∃ m, beepLen ms = m + 1 := ⟨beepLen ms - 1, by omega⟩
  rw [hm, List.range_succ_eq_map]
  simp [beepGo, beepSample, Bind.bind, Except.bind]

lemma beepGo_ok (sn : ℤ → ℤ → ℚ) (a : ℚ) (p : ℤ) (hp : p ≠ 0)
    (hr : ∀ i : ℕ, -32768 ≤ pyInt (32767 * a * sn (Int.fmod (i : ℤ) p) p) ∧
      pyInt (32767 * a * sn (Int.fmod (i : ℤ) p) p) ≤ 32767) :
    ∀ is : List ℕ, beepGo sn a p is =
      .ok ((is.map fun i : ℕ =>
        encodeS16LE (pyInt (32767 * a * sn (Int.fmod (i : ℤ) p) p))).flatten) := by
  intro is
  induction is with
  | nil => rfl
  | cons i is ih =>
      have hs : beepSample sn a p i =
          .ok (encodeS16LE (pyInt (32767 * a * sn (Int.fmod (i : ℤ) p) p))) := by
        unfold beepSample packS16LE
        rw [if_neg hp, if_pos (hr i)]
      simp [beepGo, hs, ih, Bind.bind, Except.bind, pure, Except.pure]

/-! Helper lemmas about downsample. -/

lemma downsample_group (v1 v2 : ℤ) (rest : List ℕ)
    (h1 : -32768 ≤ v1) (h2 : v1 ≤ 32767) (h3 : -32768 ≤ v2) (h4 : v2 ≤ 32767) :
    downsample (encodeS16LE v1 ++ encodeS16LE v2 ++ rest) =
      if -128 ≤ pyRoundE (((v1 : ℚ) + (v2 : ℚ)) / 512) ∧
          pyRoundE (((v1 : ℚ) + (v2 : ℚ)) / 512) ≤ 127
      then (downsample rest).map (pyRoundE (((v1 : ℚ) + (v2 : ℚ)) / 512) :: ·)
      else none := by
  rw [encodeS16LE_eq v1, encodeS16LE_eq v2]
  show downsample (_ :: _ :: _ :: _ :: rest) = _
  rw [downsample]
  rw [s16_encode_fst_snd v1 h1 h2, s16_encode_fst_snd v2 h3 h4]
  have hcast : (((v1 + v2 : ℤ) : ℚ)) = (v1 : ℚ) + (v2 : ℚ) := by push_cast; ring
  rw [hcast]
  unfold packSigned8
  split_ifs with h
  · rfl
  · rfl

lemma downsample_not_mul4 :
    ∀ data : List ℕ, ¬ (4 ∣ data.length) → downsample data = none := by
  have H : ∀ n, ∀ data : List ℕ, data.length ≤ n → ¬ (4 ∣ data.length) →
      downsample data = none := by
    intro n
    induction n with
    | zero =>
        intro data hlen h4
        have : data.length = 0 := by omega
        exact absurd (this ▸ ⟨0, rfl⟩) h4
    | succ n ih =>
        intro data hlen h4
        match data with
        | [] => exact absurd ⟨0, rfl⟩ h4
        | [a] => rfl
        | [a, b] => rfl
        | [a, b, c] => rfl
        | a :: b :: c :: d :: rest =>
            rw [downsample]
            have hrest : downsample rest = none := by
              refine ih rest (by simp at hlen ⊢; omega) ?_
              simp at h4 ⊢
              omega
            cases hp : packSigned8 (pyRoundE (((s16 a b + s16 c d : ℤ) : ℚ) / 512)) with
            | none => rfl
            | some v => simp [hrest]
  exact fun data h => H data.length data le_rfl h

/-! Helper lemmas characterizing the channel scan. -/

lemma find_channel_scan_spec (port : ℤ) (cs : List SvcClass) (hsp gen : Option ℤ) :
    find_channel_scan port cs hsp gen =
      if hasClass .handsfree cs then .inl port
      else .inr (if hasClass .headset cs then some port else hsp,
                 if hasClass .genericAudio cs then some port else gen) := by
  induction cs generalizing hsp gen with
  | nil => simp [find_channel_scan, hasClass]
  | cons c cs ih =>
      cases c <;>
        simp only [find_channel_scan, hasClass, ih, if_true, if_false, reduceCtorEq,
          reduceIte] <;>
        split_ifs <;> simp_all

lemma find_channel_records_spec :
    ∀ (recs : List SvcRecord) (hsp gen : Option ℤ),
      find_channel_records recs hsp gen =
        match firstHandsfree recs with
        | some p => some p
        | none =>
            let h := match lastHeadset recs with | some p => some p | none => hsp
            let g := match lastGeneric recs with | some p => some p | none => gen
            if truthy h then h else g := by
  intro recs
  induction recs with
  | nil => intro hsp gen; rfl
  | cons r rs ih =>
      intro hsp gen
      rw [find_channel_records, find_channel_scan_spec]
      by_cases hhf : hasClass .handsfree r.classes = true
      · simp [hhf, firstHandsfree]
      · simp only [Bool.not_eq_true] at hhf
        simp only [hhf, if_false, Bool.false_eq_true]
        rw [ih]
        simp only [firstHandsfree, hhf, Bool.false_eq_true, if_false]
        cases hfh : firstHandsfree rs with
        | some p => rfl
        | none =>
            simp only []
            have hhs : (match lastHeadset (r :: rs) with
                | some p => some p
                | none => hsp) =
                (match lastHeadset rs with
                | some p => some p
                | none => if hasClass .headset r.classes then some r.port else hsp) := by
              rw [lastHeadset]
              cases lastHeadset rs with
              | some p => rfl
              | none => split_ifs <;> rfl
            have hge : (match lastGeneric (r :: rs) with
                | some p => some p
                | none => gen) =
                (match lastGeneric rs with
                | some p => some p
                | none => if hasClass .genericAudio r.classes then some r.port else gen) := by
              rw [lastGeneric]
              cases lastGeneric rs with
              | some p => rfl
              | none => split_ifs <;> rfl
            rw [hhs, hge]

lemma find_channel_spec (recs : List SvcRecord) :
    find_channel recs =
      match firstHandsfree recs with
      | some p => some p
      | none =>
          if truthy (lastHeadset recs) then lastHeadset recs else lastGeneric recs := by
  rw [find_channel, find_channel_records_spec]
  cases firstHandsfree recs with
  | some p => rfl
  | none =>
      simp only []
      have hh : (match lastHeadset recs with | some p => some p | none => (none : Option ℤ)) =
          lastHeadset recs := by
        cases lastHeadset recs <;> rfl
      have hg : (match lastGeneric recs with | some p => some p | none => (none : Option ℤ)) =
          lastGeneric recs := by
        cases lastGeneric recs <;> rfl
      rw [hh, hg]

lemma run_parse_channel_steady (m : ℕ) :
    ∀ c w : ℕ,
      run_parse_channel ⟨false, false, c, w⟩ (List.replicate m ⟨none, true, false⟩) =
        ⟨false, false, c + m, w⟩ := by
  induction m with
  | zero => intro c w; simp [run_parse_channel]
  | succ m ih =>
      intro c w
      rw [List.replicate_succ, run_parse_channel]
      have hstep : (parse_channel_step ⟨false, false, c, w⟩ ⟨none, true, false⟩).1 =
          ⟨false, false, c + 1, w⟩ := rfl
      rw [hstep, ih]
      have : c + 1 + m = c + (m + 1) := by omega
      rw [this]

/-! Settling the claims. -/

/-- Claim C1, counterexample: with an audio session present, write in the
extended format on the 4-byte group encoding v1 = v2 = 32767 raises
struct.error from struct.pack (the rounded value 128 exceeds the signed
8-bit range), instead of reporting False — so the Public API does raise. -/
theorem c1_counterexample :
    write ⟨true, true⟩ [255, 127, 255, 127] 1 true = .error .structError := by
  with_unfolding_all decide

/-- Claim C1 as amended: read and is_connected never raise and report a
missing session or transport failure as None; write never raises in the
native format; write in the extended format raises struct.error exactly
when the Downsample conversion fails (a trailing partial group or a group
whose rounded value leaves [-128, 127]); beep raises ZeroDivisionError
whenever frequency > 8000 makes the computed period 0 and at least one
sample is due; close raises AttributeError when called after a previous
close has already cleared the thread handle. -/
theorem c1_api_exceptions :
    (∀ (st : BTState) (rcv : RecvR) (format : ℕ), ∃ r, read st rcv format = .ok r) ∧
    (∀ (st : BTState) (data : List ℕ) (sendOk : Bool),
      ∃ b, write st data 0 sendOk = .ok b) ∧
    (∀ (st : BTState) (data : List ℕ) (format : ℕ) (sendOk : Bool),
      st.audio = true → format ≠ 0 →
      (write st data format sendOk = .error .structError ↔ downsample data = none)) ∧
    (∀ (st : BTState) (sn : ℤ → ℤ → ℚ) (ms f a : ℚ) (sendOk : Bool),
      8000 < f → 1 ≤ beepLen ms → beep st sn ms f a sendOk = .error .zeroDivision) ∧
    close true = .ok () ∧ close false = .error .attrError := by
  refine ⟨?_, ?_, ?_, ?_, rfl, rfl⟩
  · intro st rcv format
    cases h : st.audio with
    | false => exact ⟨none, by simp [read, h]⟩
    | true =>
        cases rcv with
        | btErr => exact ⟨none, by simp [read, h]⟩
        | data d =>
            by_cases hf : format = 0
            · exact ⟨some d, by simp [read, h, hf]⟩
            · exact ⟨some (upsample d), by simp [read, h, hf]⟩
  · intro st data sendOk
    cases h : st.audio with
    | false => exact ⟨false, by simp [write, h]⟩
    | true => exact ⟨sendOk, by simp [write, h]⟩
  · intro st data format sendOk hst hf
    cases hd : downsample data <;> simp [write, hst, hf, hd]
  · intro st sn ms f a sendOk hf hlen
    unfold beep
    rw [beepBytes_zero_period sn ms f a hf hlen]

/-- Claim C1, witness for the amended statement. -/
theorem c1_witness :
    (∃ r, read ⟨true, true⟩ (.data [1, 255]) 1 = .ok r) ∧
    (write ⟨true, true⟩ [255, 127, 255, 127] 1 true = .error .structError ↔
      downsample [255, 127, 255, 127] = none) ∧
    beep ⟨false, false⟩ (fun _ _ => 0) 300 16000 (1 / 2) true = .error .zeroDivision :=
  ⟨c1_api_exceptions.1 ⟨true, true⟩ (.data [1, 255]) 1,
   c1_api_exceptions.2.2.1 ⟨true, true⟩ [255, 127, 255, 127] 1 true rfl (by decide),
   c1_api_exceptions.2.2.2.1 ⟨false, false⟩ (fun _ _ => 0) 300 16000 (1 / 2) true
     (by decide) (by with_unfolding_all decide)⟩

/-- Claim C2, counterexample: on the group encoding v1 = v2 = 32767 the
claimed clamped conversion yields the byte 127, but the source conversion
raises struct.error (none); and on a 5-byte input the claimed conversion
silently drops the trailing byte, but the source conversion raises. -/
theorem c2_counterexample :
    downsample_claimed [255, 127, 255, 127] = [127] ∧
    downsample [255, 127, 255, 127] = none ∧
    downsample_claimed [0, 0, 0, 0, 9] = [0] ∧
    downsample [0, 0, 0, 0, 9] = none := by
  with_unfolding_all decide

/-- Claim C2 as amended: every full 4-byte group, decoded as two signed
little-endian 16-bit samples v1 and v2, yields one signed 8-bit byte equal
to round((v1 + v2) / 512) — Python round, half to even — when that value
lies in [-128, 127], and otherwise write raises struct.error instead of
clamping; an input whose length is not a multiple of 4 likewise raises
struct.error instead of dropping the trailing partial group. -/
theorem c2_downsample_behaviour :
    (∀ (v1 v2 : ℤ) (rest : List ℕ),
      -32768 ≤ v1 → v1 ≤ 32767 → -32768 ≤ v2 → v2 ≤ 32767 →
      downsample (encodeS16LE v1 ++ encodeS16LE v2 ++ rest) =
        if -128 ≤ pyRoundE (((v1 : ℚ) + (v2 : ℚ)) / 512) ∧
            pyRoundE (((v1 : ℚ) + (v2 : ℚ)) / 512) ≤ 127
        then (downsample rest).map (pyRoundE (((v1 : ℚ) + (v2 : ℚ)) / 512) :: ·)
        else none) ∧
    (∀ data : List ℕ, ¬ (4 ∣ data.length) → downsample data = none) :=
  ⟨downsample_group, downsample_not_mul4⟩

/-- Claim C2, witness for the amended statement. -/
theorem c2_witness :
    downsample (encodeS16LE 300 ++ encodeS16LE 212 ++ []) =
      (if -128 ≤ pyRoundE ((((300 : ℤ) : ℚ) + ((212 : ℤ) : ℚ)) / 512) ∧
          pyRoundE ((((300 : ℤ) : ℚ) + ((212 : ℤ) : ℚ)) / 512) ≤ 127
       then (downsample []).map (pyRoundE ((((300 : ℤ) : ℚ) + ((212 : ℤ) : ℚ)) / 512) :: ·)
       else none) ∧
    downsample [0] = none :=
  ⟨c2_downsample_behaviour.1 300 212 [] (by decide) (by decide) (by decide) (by decide),
   c2_downsample_behaviour.2 [0] (by decide)⟩

/-- Claim C3, counterexample: a successful audio connect that negotiates
MTU = 10 leaves an audio session whose payload size is 10 - 16 = -6, so
payload_size > 0 does not hold for every negotiated MTU. -/
theorem c3_counterexample :
    (connect_audio ⟨false, 0⟩ true 10).audio = true ∧
    ¬ 0 < (connect_audio ⟨false, 0⟩ true 10).sco_payload := by
  decide

/-- Claim C3 as amended: after every successful audio connect the session
exists and payload_size equals mtu - 16, which is strictly positive
exactly for negotiated MTU values above 16 (the source performs no check,
so smaller MTUs yield a session with payload_size ≤ 0); a failed connect
leaves the state unchanged. -/
theorem c3_payload_mtu_minus_16 (st : AudioState) (mtu : ℕ) (hm : mtu < 65536) :
    (connect_audio st true mtu).audio = true ∧
    (connect_audio st true mtu).sco_payload = (mtu : ℤ) - 16 ∧
    (16 < mtu → 0 < (connect_audio st true mtu).sco_payload) ∧
    connect_audio st false mtu = st := by
  refine ⟨rfl, ?_, ?_, rfl⟩
  · show ((mtu % 65536 : ℕ) : ℤ) - 16 = (mtu : ℤ) - 16
    rw [Nat.mod_eq_of_lt hm]
  · intro h16
    show 0 < ((mtu % 65536 : ℕ) : ℤ) - 16
    rw [Nat.mod_eq_of_lt hm]
    omega

/-- Claim C3, witness for the amended statement. -/
theorem c3_witness :
    (connect_audio ⟨false, 0⟩ true 48).audio = true ∧
    (connect_audio ⟨false, 0⟩ true 48).sco_payload = (48 : ℤ) - 16 ∧
    (16 < 48 → 0 < (connect_audio ⟨false, 0⟩ true 48).sco_payload) ∧
    connect_audio ⟨false, 0⟩ false 48 = ⟨false, 0⟩ :=
  c3_payload_mtu_minus_16 ⟨false, 0⟩ 48 (by decide)

/-- Claim C4, counterexample: a chunk containing both AT+BRSF= and
AT+CMER= is dispatched by the earlier AT+BRSF= substring branch, so it
answers with the BRSF response and does not trigger an audio connect,
contradicting the claim that every chunk containing AT+CMER= yields
exactly CRLF OK CRLF and a connect attempt. -/
theorem c4_counterexample :
    containsB (strB "AT+CMER=") (strB "AT+BRSF=0\rAT+CMER=3,0,0,1\r") = true ∧
    dispatchAT (strB "AT+BRSF=0\rAT+CMER=3,0,0,1\r") ≠ ⟨strB "\r\nOK\r\n", true⟩ ∧
    (dispatchAT (strB "AT+BRSF=0\rAT+CMER=3,0,0,1\r")).connectAudio = false := by
  decide

/-- Claim C4 as amended: a chunk equal to AT+CIND? CR yields exactly the
CIND response followed by OK; a chunk containing AT+CMER= and not
containing AT+BRSF= (the substring branch checked earlier) yields exactly
CRLF OK CRLF and sets the audio-connect trigger; a chunk matching none of
the five table patterns yields exactly CRLF ERROR CRLF without a trigger. -/
theorem c4_dispatch_rows :
    dispatchAT (strB "AT+CIND?\r") = ⟨strB "\r\n+CIND: 1,0\r\n\r\nOK\r\n", false⟩ ∧
    (∀ d, containsB (strB "AT+CMER=") d = true → containsB (strB "AT+BRSF=") d = false →
      dispatchAT d = ⟨strB "\r\nOK\r\n", true⟩) ∧
    (∀ d, containsB (strB "AT+BRSF=") d = false → d ≠ strB "AT+CIND=?\r" →
      d ≠ strB "AT+CIND?\r" → containsB (strB "AT+CMER=") d = false →
      d ≠ strB "AT+CHLD=?\r" →
      dispatchAT d = ⟨strB "\r\nERROR\r\n", false⟩) := by
  refine ⟨by decide, ?_, ?_⟩
  · intro d hc hb
    have h1 : d ≠ strB "AT+CIND=?\r" := by
      intro he; rw [he] at hc; exact absurd hc (by decide)
    have h2 : d ≠ strB "AT+CIND?\r" := by
      intro he; rw [he] at hc; exact absurd hc (by decide)
    unfold dispatchAT
    rw [if_neg (by simp [hb]), if_neg h1, if_neg h2, if_pos hc]
    decide
  · intro d hb h1 h2 hc h3
    unfold dispatchAT
    rw [if_neg (by simp [hb]), if_neg h1, if_neg h2, if_neg (by simp [hc]), if_neg h3]
    decide

/-- Claim C4, witness for the amended statement. -/
theorem c4_witness :
    dispatchAT (strB "AT+CMER=3,0,0,1\r") = ⟨strB "\r\nOK\r\n", true⟩ ∧
    dispatchAT (strB "AT+FOO\r") = ⟨strB "\r\nERROR\r\n", false⟩ :=
  ⟨c4_dispatch_rows.2.1 (strB "AT+CMER=3,0,0,1\r") (by decide) (by decide),
   c4_dispatch_rows.2.2 (strB "AT+FOO\r") (by decide) (by decide) (by decide)
     (by decide) (by decide)⟩

/-- Claim C5, counterexample: with records Headset(port 0), GenericAudio
(port 5) — no Handsfree record, and a Headset record seen whose channel
is 0 — the scan resolves to channel 5, not to the Headset record channel,
because hsp_channel = 0 is falsy in the final selection. -/
theorem c5_counterexample :
    find_channel [⟨[.headset], 0⟩, ⟨[.genericAudio], 5⟩] = some 5 ∧
    (∀ r ∈ [(⟨[.headset], 0⟩ : SvcRecord), ⟨[.genericAudio], 5⟩],
      hasClass .handsfree r.classes = false) ∧
    (∃ r ∈ [(⟨[.headset], 0⟩ : SvcRecord), ⟨[.genericAudio], 5⟩],
      hasClass .headset r.classes = true) ∧
    (∀ r ∈ [(⟨[.headset], 0⟩ : SvcRecord), ⟨[.genericAudio], 5⟩],
      hasClass .headset r.classes = true → r.port = 0) ∧
    (5 : ℤ) ≠ 0 := by
  decide

/-- Claim C5 as amended: resolution returns the channel of the first
record containing the Handsfree class if any record has it; otherwise the
channel of the last-seen Headset-class record provided that channel is
nonzero (a Headset channel of 0 is falsy and is passed over); otherwise
the channel of the last-seen GenericAudio-class record; otherwise no
channel. -/
theorem c5_channel_priority (recs : List SvcRecord) :
    find_channel recs =
      match firstHandsfree recs with
      | some p => some p
      | none =>
          if truthy (lastHeadset recs) then lastHeadset recs else lastGeneric recs :=
  find_channel_spec recs

/-- Claim C6, counterexample: two loop iterations past the grace deadline
with no audio session and no inbound data attempt an audio connect twice
(the connect call is outside the one-time-notice conditional), while
warning only once — the claim says the connect is attempted exactly once. -/
theorem c6_counterexample :
    (run_parse_channel ⟨false, true, 0, 0⟩
      [⟨none, true, false⟩, ⟨none, true, false⟩]).connects = 2 ∧
    (run_parse_channel ⟨false, true, 0, 0⟩
      [⟨none, true, false⟩, ⟨none, true, false⟩]).warns = 1 := by
  decide

/-- Claim C6 as amended: within one control session, once the 10-second
grace period has elapsed and while no audio session exists, the AT loop
attempts a proactive audio connect on every iteration — n attempts in n
late iterations — and the accompanying warning is emitted exactly once. -/
theorem c6_grace_connects (n : ℕ) :
    (run_parse_channel ⟨false, true, 0, 0⟩
      (List.replicate n ⟨none, true, false⟩)).connects = n ∧
    (run_parse_channel ⟨false, true, 0, 0⟩
      (List.replicate n ⟨none, true, false⟩)).warns = min 1 n := by
  cases n with
  | zero => exact ⟨rfl, rfl⟩
  | succ m =>
      rw [List.replicate_succ, run_parse_channel]
      have hstep : (parse_channel_step ⟨false, true, 0, 0⟩ ⟨none, true, false⟩).1 =
          ⟨false, false, 1, 1⟩ := rfl
      rw [hstep, run_parse_channel_steady m 1 1]
      constructor
      · show 1 + m = m + 1
        omega
      · show 1 = min 1 (m + 1)
        omega

/-- Claim C7, counterexample: the computed period is int(8000/frequency),
truncation toward zero, not round(8000/frequency): at frequency 3000 the
source computes period 2 while the claimed formula gives 3. -/
theorem c7_counterexample :
    beepPeriod 3000 = 2 ∧ round ((8000 : ℚ) / 3000) = 3 ∧
    beepPeriod 3000 ≠ round ((8000 : ℚ) / 3000) := by
  with_unfolding_all decide

/-- Claim C7 as amended: for frequencies in (0, 8000] and amplitude in
[0, 1], the tone has period int(8000/frequency) ≥ 1 samples — int() is
truncation toward zero, not rounding — a total of int(8000*length_ms/1000)
samples, and sample i is int(32767 * amplitude * sin(2π(i mod period)/
period)) — again truncated, not rounded — packed as signed 16-bit
little-endian; the sine evaluation sn is abstract, bounded by 1 in
absolute value. -/
theorem c7_beep_truncation (sn : ℤ → ℤ → ℚ) (ms f a : ℚ)
    (hf0 : 0 < f) (hf8 : f ≤ 8000) (ha0 : 0 ≤ a) (ha1 : a ≤ 1)
    (hsn : ∀ x p : ℤ, |sn x p| ≤ 1) :
    beepPeriod f = pyInt (8000 / f) ∧
    1 ≤ beepPeriod f ∧
    ∃ bs, beepBytes sn ms f a = .ok bs ∧
      bs.length = 2 * beepLen ms ∧
      ∀ i, i < beepLen ms →
        s16 (bs.getD (2 * i) 0) (bs.getD (2 * i + 1) 0) =
          pyInt (32767 * a * sn (Int.fmod (i : ℤ) (beepPeriod f)) (beepPeriod f)) := by
  have hp1 : 1 ≤ beepPeriod f := one_le_beepPeriod f hf0 hf8
  have hpne : beepPeriod f ≠ 0 := by omega
  have hrange : ∀ i : ℕ,
      -32768 ≤ pyInt (32767 * a * sn (Int.fmod (i : ℤ) (beepPeriod f)) (beepPeriod f)) ∧
      pyInt (32767 * a * sn (Int.fmod (i : ℤ) (beepPeriod f)) (beepPeriod f)) ≤ 32767 := by
    intro i
    have hs := hsn (Int.fmod (i : ℤ) (beepPeriod f)) (beepPeriod f)
    have habs : |32767 * a * sn (Int.fmod (i : ℤ) (beepPeriod f)) (beepPeriod f)| ≤
        ((32767 : ℤ) : ℚ) := by
      rw [abs_mul, abs_mul, abs_of_nonneg (by norm_num : (0 : ℚ) ≤ 32767),
        abs_of_nonneg ha0]
      push_cast
      nlinarith [abs_nonneg (sn (Int.fmod (i : ℤ) (beepPeriod f)) (beepPeriod f))]
    have hb := pyInt_bounds _ 32767 habs
    omega
  have hgo := beepGo_ok sn a (beepPeriod f) hpne hrange (List.range (beepLen ms))
  have hbb : beepBytes sn ms f a = .ok (((List.range (beepLen ms)).map fun i : ℕ =>
      encodeS16LE (pyInt (32767 * a * sn (Int.fmod (i : ℤ) (beepPeriod f))
        (beepPeriod f)))).flatten) := by
    unfold beepBytes
    rw [if_neg (ne_of_gt hf0)]
    exact hgo
  refine ⟨rfl, hp1, _, hbb, ?_, ?_⟩
  · rw [List.length_flatten, List.map_map]
    have hcomp : (List.length ∘ fun i : ℕ =>
        encodeS16LE (pyInt (32767 * a * sn (Int.fmod (i : ℤ) (beepPeriod f))
          (beepPeriod f)))) = fun _ : ℕ => 2 := by
      funext i
      simp [Function.comp, encodeS16LE_length]
    rw [hcomp]
    simp [List.sum_replicate, smul_eq_mul, Nat.mul_comm]
  · intro i hi
    have hL : ∀ bl ∈ ((List.range (beepLen ms)).map fun i : ℕ =>
        encodeS16LE (pyInt (32767 * a * sn (Int.fmod (i : ℤ) (beepPeriod f))
          (beepPeriod f)))), bl.length = 2 := by
      intro bl hbl
      obtain ⟨j, _, rfl⟩ := List.mem_map.mp hbl
      exact encodeS16LE_length _
    have hiL : i < ((List.range (beepLen ms)).map fun i : ℕ =>
        encodeS16LE (pyInt (32767 * a * sn (Int.fmod (i : ℤ) (beepPeriod f))
          (beepPeriod f)))).length := by
      simpa using hi
    have h0 := join_getD 2 _ hL i hiL 0 (by norm_num)
    have h1 := join_getD 2 _ hL i hiL 1 (by norm_num)
    simp only [Nat.add_zero] at h0
    have hLi : (((List.range (beepLen ms)).map fun i : ℕ =>
        encodeS16LE (pyInt (32767 * a * sn (Int.fmod (i : ℤ) (beepPeriod f))
          (beepPeriod f)))).getD i []) =
        encodeS16LE (pyInt (32767 * a * sn (Int.fmod (i : ℤ) (beepPeriod f))
          (beepPeriod f))) := by
      rw [List.getD_eq_getElem _ _ hiL]
      simp
    rw [h0, h1, hLi, encodeS16LE_eq]
    simp only [List.getD_cons_zero, List.getD_cons_succ]
    exact s16_encode_fst_snd _ (hrange i).1 (hrange i).2

/-- Claim C7, witness for the amended statement. -/
theorem c7_witness :
    beepPeriod 1000 = pyInt (8000 / 1000) ∧
    1 ≤ beepPeriod 1000 ∧
    ∃ bs, beepBytes (fun _ _ => 0) 1 1000 1 = .ok bs ∧
      bs.length = 2 * beepLen 1 ∧
      ∀ i, i < beepLen 1 →
        s16 (bs.getD (2 * i) 0) (bs.getD (2 * i + 1) 0) =
          pyInt (32767 * 1 * 0) :=
  c7_beep_truncation (fun _ _ => 0) 1 1000 1 (by decide) (by decide) (by decide)
    (by decide) (fun x p => by simp)

/-- Claim C8, confirmed: when read is called in the extended format with
an audio session present, the received bytes are upsampled; the output is
4 times as long as the input, and for each input byte with sign-extended
value v the corresponding four output bytes decode as the little-endian
signed 16-bit pair (v * 256, v * 256). -/
theorem c8_read_upsample (st : BTState) (d : List ℕ) (hst : st.audio = true) :
    read st (.data d) 1 = .ok (some (upsample d)) ∧
    (upsample d).length = 4 * d.length ∧
    ∀ i, i < d.length →
      s16 ((upsample d).getD (4 * i) 0) ((upsample d).getD (4 * i + 1) 0) =
        sExt (d.getD i 0) * 256 ∧
      s16 ((upsample d).getD (4 * i + 2) 0) ((upsample d).getD (4 * i + 3) 0) =
        sExt (d.getD i 0) * 256 := by
  refine ⟨by simp [read, hst], upsample_length d, ?_⟩
  intro i hi
  have hL : ∀ bl ∈ (d.map fun b =>
      encodeS16LE (sExt b * 256) ++ encodeS16LE (sExt b * 256)), bl.length = 4 := by
    intro bl hbl
    obtain ⟨b, _, rfl⟩ := List.mem_map.mp hbl
    simp [encodeS16LE]
  have hiL : i < (d.map fun b =>
      encodeS16LE (sExt b * 256) ++ encodeS16LE (sExt b * 256)).length := by
    simpa using hi
  have hblock : ((d.map fun b =>
      encodeS16LE (sExt b * 256) ++ encodeS16LE (sExt b * 256)).getD i []) =
      encodeS16LE (sExt (d.getD i 0) * 256) ++ encodeS16LE (sExt (d.getD i 0) * 256) := by
    rw [List.getD_eq_getElem _ _ hiL, List.getElem_map, List.getD_eq_getElem _ _ hi]
  have hw1 : -32768 ≤ sExt (d.getD i 0) * 256 := by
    have := sExt_bounds (d.getD i 0); omega
  have hw2 : sExt (d.getD i 0) * 256 ≤ 32767 := by
    have := sExt_bounds (d.getD i 0); omega
  have hdec := s16_encode_fst_snd (sExt (d.getD i 0) * 256) hw1 hw2
  have h0 := join_getD 4 _ hL i hiL 0 (by norm_num)
  have h1 := join_getD 4 _ hL i hiL 1 (by norm_num)
  have h2 := join_getD 4 _ hL i hiL 2 (by norm_num)
  have h3 := join_getD 4 _ hL i hiL 3 (by norm_num)
  simp only [Nat.add_zero] at h0
  constructor
  · rw [upsample_eq_join, h0, h1, hblock, encodeS16LE_eq]
    simpa only [List.cons_append, List.nil_append, List.getD_cons_zero,
      List.getD_cons_succ] using hdec
  · rw [upsample_eq_join, h2, h3, hblock, encodeS16LE_eq]
    simpa only [List.cons_append, List.nil_append, List.getD_cons_zero,
      List.getD_cons_succ] using hdec

/-- Claim C8, witness. -/
theorem c8_witness :
    read ⟨true, true⟩ (.data [1, 255]) 1 = .ok (some (upsample [1, 255])) ∧
    (upsample [1, 255]).length = 4 * 2 ∧
    s16 ((upsample [1, 255]).getD 4 0) ((upsample [1, 255]).getD 5 0) =
      sExt (([1, 255] : List ℕ).getD 1 0) * 256 :=
  ⟨(c8_read_upsample ⟨true, true⟩ [1, 255] rfl).1,
   (c8_read_upsample ⟨true, true⟩ [1, 255] rfl).2.1,
   ((c8_read_upsample ⟨true, true⟩ [1, 255] rfl).2.2 1 (by decide)).1⟩

/-- Claim C9, confirmed: for every beep call with frequency strictly
above 8000 the computed period int(8000/frequency) is 0, and as soon as
at least one sample is due the i mod period computation raises
ZeroDivisionError — beep errors instead of returning False. -/
theorem c9_beep_division_by_zero (st : BTState) (sn : ℤ → ℤ → ℚ) (ms f a : ℚ)
    (sendOk : Bool) (hf : 8000 < f) (hlen : 1 ≤ beepLen ms) :
    beepPeriod f = 0 ∧ beep st sn ms f a sendOk = .error .zeroDivision := by
  refine ⟨beepPeriod_eq_zero f hf, ?_⟩
  unfold beep
  rw [beepBytes_zero_period sn ms f a hf hlen]

/-- Claim C9, witness. -/
theorem c9_witness :
    beepPeriod 16000 = 0 ∧
    beep ⟨true, true⟩ (fun _ _ => 1) 300 16000 (1 / 2) true = .error .zeroDivision :=
  c9_beep_division_by_zero ⟨true, true⟩ (fun _ _ => 1) 300 16000 (1 / 2) true
    (by decide) (by with_unfolding_all decide)

/-- Claim C10, confirmed: a scan whose selected channel is 0 makes the
worker sleep and retry, and the worker never attempts a control
connection on channel 0; a Headset-class record scanned with port 0
leaves hsp_channel falsy, so selection falls through to the GenericAudio
fallback (or to no channel), and a GenericAudio port of 0 is likewise
caught by the same truthiness test in the worker. -/
theorem c10_zero_channel_guard :
    (∀ recs, find_channel recs = some 0 → worker_step recs = .sleepRetry) ∧
    (∀ recs c, worker_step recs = .connectControl c → c ≠ 0) ∧
    (∀ recs, firstHandsfree recs = none → lastHeadset recs = some 0 →
      find_channel recs = lastGeneric recs) := by
  refine ⟨?_, ?_, ?_⟩
  · intro recs h
    unfold worker_step
    rw [h]
    simp
  · intro recs c h
    unfold worker_step at h
    cases hf : find_channel recs with
    | none => rw [hf] at h; exact absurd h (by simp)
    | some p =>
        rw [hf] at h
        have h' : (if p = 0 then WorkerDecision.sleepRetry
            else WorkerDecision.connectControl p) = .connectControl c := h
        by_cases hp : p = 0
        · rw [if_pos hp] at h'
          exact absurd h' (by simp)
        · rw [if_neg hp] at h'
          simp only [WorkerDecision.connectControl.injEq] at h'
          rw [← h']
          exact hp
  · intro recs hhf hhs
    rw [find_channel_spec, hhf, hhs]
    simp [truthy]

/-- Claim C10, witness. -/
theorem c10_witness :
    worker_step [⟨[.genericAudio], 0⟩] = .sleepRetry ∧
    ((7 : ℤ) ≠ 0) ∧
    find_channel [⟨[.headset], 0⟩, ⟨[.genericAudio], 5⟩] =
      lastGeneric [⟨[.headset], 0⟩, ⟨[.genericAudio], 5⟩] :=
  ⟨c10_zero_channel_guard.1 [⟨[.genericAudio], 0⟩] (by decide),
   c10_zero_channel_guard.2.1 [⟨[.handsfree], 7⟩] 7 (by decide),
   c10_zero_channel_guard.2.2 [⟨[.headset], 0⟩, ⟨[.genericAudio], 5⟩]
     (by decide) (by decide)⟩

end BluetoothAudio
